import Mathlib

/-!
Shallow embedding of the `tcp-chat` repository (src/src/lib.rs,
src/src/server.rs, src/src/client.rs) and proofs about its wire codec,
broker state machine, login handshake and ingress pipeline.

Bytes are modelled as `Nat` values understood to lie below 256 (Rust `u8`);
machine integers are `Nat` with explicit bounds or `% 2^w` where overflow
matters.
-/

namespace TcpChat

/-- Embedding of `MessageType` (src/src/lib.rs:11-28), a `repr(u16)` enum with
discriminants `Login=1 .. Voice=9` and a trailing `num_enum(default)` variant
`Unknwown` (discriminant 10, and the target of every unlisted numeric value).
The source's spelling `Unknwown` is kept. -/
inductive MessageType where
  | Login
  | Logout
  | UsernameExists
  | BadUsername
  | BadLogin
  | Image
  | Utf8
  | File
  | Voice
  | Unknwown
deriving DecidableEq, Repr

/-- The in-memory `u16` discriminant of each `MessageType` variant
(`Login = 1`, ..., `Voice = 9`, `Unknwown = 10`). -/
def MessageType.toU16 : MessageType → Nat
  | .Login => 1
  | .Logout => 2
  | .UsernameExists => 3
  | .BadUsername => 4
  | .BadLogin => 5
  | .Image => 6
  | .Utf8 => 7
  | .File => 8
  | .Voice => 9
  | .Unknwown => 10

/-- Embedding of `num_enum::FromPrimitive` for `MessageType`: the named
discriminants map to their variants, every other `u16` value maps to the
`#[num_enum(default)]` variant `Unknwown`. -/
def MessageType.fromU16 : Nat → MessageType
  | 1 => .Login
  | 2 => .Logout
  | 3 => .UsernameExists
  | 4 => .BadUsername
  | 5 => .BadLogin
  | 6 => .Image
  | 7 => .Utf8
  | 8 => .File
  | 9 => .Voice
  | _ => .Unknwown

/-- Embedding of `Descriptor` (src/src/lib.rs:30-36): `repr(C)` struct with a
`u16` kind, a `u16` header length and a `u64` content length.  With `repr(C)`
the `u64` field is 8-byte aligned, so the struct occupies 16 bytes in memory:
kind at offsets 0-1, `header_len` at 2-3, four padding bytes at 4-7 and
`content_len` at 8-15.  The integer fields are `Nat`s bounded by the Rust
types (`header_len < 2^16`, `content_len < 2^64`) where theorems need it. -/
structure Descriptor where
  type : MessageType
  header_len : Nat
  content_len : Nat
deriving DecidableEq, Repr

/-- Embedding of `Descriptor::from(t)` (src/src/lib.rs:75-83): kind `t`, zero lengths. -/
def Descriptor.fromType (t : MessageType) : Descriptor :=
  { type := t, header_len := 0, content_len := 0 }

/-- Embedding of `Descriptor::with_content_len` (src/src/lib.rs:86-89). -/
def Descriptor.with_content_len (d : Descriptor) (c : Nat) : Descriptor :=
  { d with content_len := c }

/-- Embedding of `Descriptor::with_header_len` (src/src/lib.rs:91-94). -/
def Descriptor.with_header_len (d : Descriptor) (h : Nat) : Descriptor :=
  { d with header_len := h }

/-- Little-endian bytes of a `u16` value. -/
def u16le (n : Nat) : List Nat := [n % 256, n / 256 % 256]

/-- Little-endian bytes of a `u64` value. -/
def u64le (n : Nat) : List Nat :=
  [n % 256, n / 256 % 256, n / 256 / 256 % 256, n / 256 / 256 / 256 % 256,
   n / 256 / 256 / 256 / 256 % 256, n / 256 / 256 / 256 / 256 / 256 % 256,
   n / 256 / 256 / 256 / 256 / 256 / 256 % 256,
   n / 256 / 256 / 256 / 256 / 256 / 256 / 256 % 256]

/-- Embedding of `Descriptor::as_bytes` (src/src/lib.rs:118-126).  The source
reinterprets the struct's raw memory as a byte slice of length
`size_of::<Descriptor>() = 16`.  On a little-endian host that yields the two
integer fields little-endian at offsets 0-1 and 2-3, `content_len`
little-endian at offsets 8-15, and at offsets 4-7 the struct's four padding
bytes, which Rust leaves uninitialized: nothing in the source ever writes
them, so they are passed here as the explicit parameter `pad` (the first four
entries of `pad`, padded with zeros if `pad` is shorter). -/
def Descriptor.as_bytes (d : Descriptor) (pad : List Nat) : List Nat :=
  u16le d.type.toU16 ++ u16le d.header_len ++
    (pad ++ List.replicate 4 0).take 4 ++ u64le d.content_len

/-- Embedding of `Descriptor::from_bytes` (src/src/lib.rs:97-116).  The source
asserts `bytes.len() == size_of::<Descriptor>()` (16) and panics otherwise;
the panic is modelled as `none`.  The kind is `(bytes[0] as u16) |
((bytes[1] as u16) << 8)` mapped through the enum, `header_len` is
`(bytes[2] as u16) | ((bytes[3] as u16) << 8)`, and `content_len` is a raw
memory copy of bytes 8-15 into a `u64`, i.e. little-endian on the
little-endian host.  Bytes 4-7 are ignored. -/
def Descriptor.from_bytes (bytes : List Nat) : Option Descriptor :=
  match bytes with
  | [b0, b1, b2, b3, _, _, _, _, c0, c1, c2, c3, c4, c5, c6, c7] =>
      some { type := MessageType.fromU16 (b0 + b1 * 256),
             header_len := b2 + b3 * 256,
             content_len := c0 + 256 * (c1 + 256 * (c2 + 256 * (c3 + 256 *
               (c4 + 256 * (c5 + 256 * (c6 + 256 * c7)))))) }
  | _ => none

theorem fromU16_toU16 (t : MessageType) : MessageType.fromU16 t.toU16 = t := by
  cases t <;> rfl

theorem toU16_lt (t : MessageType) : t.toU16 < 256 := by
  cases t <;> decide

/-- C4 (amended): serializing a `Descriptor` yields 16 bytes (not 12: the
`repr(C)` struct has four alignment padding bytes before the 8-byte
`content_len`), and decoding those 16 bytes yields the descriptor back in all
three fields, for every value of the uninitialized padding. -/
theorem C4_descriptor_roundtrip (d : Descriptor) (pad : List Nat)
    (h1 : d.header_len < 65536) (h2 : d.content_len < 18446744073709551616) :
    (d.as_bytes pad).length = 16 ∧
      Descriptor.from_bytes (d.as_bytes pad) = some d := by
  obtain ⟨t, hl, cl⟩ := d
  have h1' : hl < 65536 := h1
  have h2' : cl < 18446744073709551616 := h2
  clear h1 h2
  have hq : ((pad ++ List.replicate 4 0).take 4).length = 4 := by
    simp [List.length_take]
  unfold Descriptor.as_bytes
  generalize hg : (pad ++ List.replicate 4 0).take 4 = q at hq ⊢
  rcases q with _ | ⟨a, _ | ⟨b, _ | ⟨c, _ | ⟨e, _ | ⟨f, q⟩⟩⟩⟩⟩ <;>
    simp only [List.length_cons, List.length_nil] at hq <;> try omega
  simp only [u16le, u64le, List.cons_append, List.nil_append,
    Descriptor.from_bytes, List.length_cons, List.length_nil]
  refine ⟨by trivial, ?_⟩
  simp only [Option.some.injEq, Descriptor.mk.injEq]
  refine ⟨?_, ?_, ?_⟩
  · have ht := toU16_lt t
    rw [Nat.mod_eq_of_lt ht, Nat.div_eq_of_lt ht]
    simp only [Nat.zero_mod, Nat.zero_mul, Nat.mul_zero, Nat.add_zero]
    exact fromU16_toU16 t
  · omega
  · omega

/-- Witness for `C4_descriptor_roundtrip` at a concrete descriptor and
nonzero padding. -/
theorem C4_descriptor_roundtrip_witness :
    (Descriptor.header_len ⟨MessageType.File, 300, 1099511627783⟩ < 65536 ∧
        Descriptor.content_len ⟨MessageType.File, 300, 1099511627783⟩ <
          18446744073709551616) ∧
      ((Descriptor.as_bytes ⟨MessageType.File, 300, 1099511627783⟩
            [9, 8, 7, 6]).length = 16 ∧
        Descriptor.from_bytes
            (Descriptor.as_bytes ⟨MessageType.File, 300, 1099511627783⟩
              [9, 8, 7, 6]) =
          some ⟨MessageType.File, 300, 1099511627783⟩) :=
  ⟨⟨by decide, by decide⟩,
    C4_descriptor_roundtrip ⟨MessageType.File, 300, 1099511627783⟩ [9, 8, 7, 6]
      (by decide) (by decide)⟩

/-- Counterexample to C4 as stated: the serialization of a descriptor is 16
bytes, not 12, and decoding a 12-byte buffer does not succeed (the length
assertion in `Descriptor::from_bytes` fails, modelled as `none`). -/
theorem C4_counterexample :
    (Descriptor.as_bytes (Descriptor.fromType MessageType.Utf8)
        [0, 0, 0, 0]).length ≠ 12 ∧
      Descriptor.from_bytes
          ((Descriptor.as_bytes (Descriptor.fromType MessageType.Utf8)
              [0, 0, 0, 0]).take 12) =
        none := by
  decide

/-- C7 (amended): for every 16-byte buffer, decoding succeeds: the kind is the
little-endian `u16` of bytes 0-1 mapped through the enumeration with every
value outside the defined set (0 or ≥ 10) mapping to the default variant,
`header_len` is the little-endian `u16` of bytes 2-3, `content_len` is the
little-endian `u64` of bytes 8-15, and no relationship between the fields is
validated (decoding is unconditionally `some`). -/
theorem C7_from_bytes_total (b0 b1 b2 b3 b4 b5 b6 b7 : Nat)
    (c0 c1 c2 c3 c4 c5 c6 c7 : Nat)
    (hu8 : ∀ b ∈ [b0, b1, b2, b3, b4, b5, b6, b7, c0, c1, c2, c3, c4, c5,
      c6, c7], b < 256) :
    Descriptor.from_bytes
        [b0, b1, b2, b3, b4, b5, b6, b7, c0, c1, c2, c3, c4, c5, c6, c7] =
      some { type := MessageType.fromU16 (b0 + b1 * 256),
             header_len := b2 + b3 * 256,
             content_len := c0 + c1 * 256 + c2 * 65536 + c3 * 16777216 +
               c4 * 4294967296 + c5 * 1099511627776 + c6 * 281474976710656 +
               c7 * 72057594037927936 } ∧
      ∀ n : Nat, n = 0 ∨ 10 ≤ n → MessageType.fromU16 n = MessageType.Unknwown := by
  constructor
  · simp [Descriptor.from_bytes]
    ring
  · intro n hn
    rcases hn with rfl | h10
    · rfl
    · obtain ⟨k, rfl⟩ : ∃ k, n = k + 10 := ⟨n - 10, by omega⟩
      rfl

/-- Witness for `C7_from_bytes_total` at a concrete 16-byte buffer. -/
theorem C7_from_bytes_total_witness :
    (∀ b ∈ [2, 0, 5, 1, 9, 9, 9, 9, 1, 2, 3, 4, 5, 6, 7, 8], b < 256) ∧
      (Descriptor.from_bytes
          [2, 0, 5, 1, 9, 9, 9, 9, 1, 2, 3, 4, 5, 6, 7, 8] =
        some { type := MessageType.fromU16 (2 + 0 * 256),
               header_len := 5 + 1 * 256,
               content_len := 1 + 2 * 256 + 3 * 65536 + 4 * 16777216 +
                 5 * 4294967296 + 6 * 1099511627776 + 7 * 281474976710656 +
                 8 * 72057594037927936 } ∧
        ∀ n : Nat, n = 0 ∨ 10 ≤ n →
          MessageType.fromU16 n = MessageType.Unknwown) :=
  ⟨by decide, C7_from_bytes_total 2 0 5 1 9 9 9 9 1 2 3 4 5 6 7 8 (by decide)⟩

/-- Counterexample to C7 as stated: on a 12-byte buffer decoding does not
succeed; `Descriptor::from_bytes` asserts the buffer length equals
`size_of::<Descriptor>() = 16` and panics (modelled as `none`). -/
theorem C7_counterexample :
    Descriptor.from_bytes (List.replicate 12 0) = none := by
  decide

/-- Embedding of `Content` (src/src/server.rs:21-26): the broadcast payload
handle.  `Arc<Vec<u8>>` is modelled as the byte list it holds, `Arc<PathBuf>`
as the path string; `Arc` sharing is value sharing in the pure model. -/
inductive Content where
  | Vec (data : List Nat)
  | File (path : String)
  | None_
deriving DecidableEq, Repr

/-- Embedding of `InternalMessage` (src/src/server.rs:28-43).  The header
`Arc<Vec<u8>>` always holds serde_json text, modelled as the JSON `String`
(its UTF-8 bytes).  A `Sender<InternalMessage>` handle is identified by a
numeric queue id; the `oneshot::Sender<MessageType>` of `Join` is left
implicit, the broker's answer on it being recorded as a `respond` effect. -/
inductive InternalMessage where
  | Message (desc : Descriptor) (header : String) (content : Content)
  | Join (username : String) (sender : Nat)
  | Logout (username : String)
deriving DecidableEq, Repr

/-- Embedding of `InternalMessage::try_clone` (src/src/server.rs:45-60):
`Some` of a field-sharing copy for the `Message` variant, `None` otherwise. -/
def InternalMessage.try_clone : InternalMessage → Option InternalMessage
  | .Message desc header content => some (.Message desc header content)
  | _ => none

/-- Model of a `ServerHeader` value serialized by `serde_json`
(src/src/lib.rs:38-73): fields `timestamp`, `from`, and `filename` omitted
when absent.  `Utc::now()` is a wall-clock value and is therefore passed in
as the explicit parameter `now` (its serialized text). -/
def serverHeaderJson (now uname : String) (filename : Option String) :
    String :=
  match filename with
  | none =>
      "\x7b\"timestamp\":\"" ++ now ++ "\",\"from\":\"" ++ uname ++ "\"\x7d"
  | some f =>
      "\x7b\"timestamp\":\"" ++ now ++ "\",\"from\":\"" ++ uname ++
        "\",\"filename\":\"" ++ f ++ "\"\x7d"

/-- The broker registry `HashMap<Arc<String>, Sender<InternalMessage>>`
(src/src/server.rs:80), modelled as an association list with unique keys
(the reachable-state invariant proved below). -/
abbrev Registry := List (String × Nat)

/-- Lookup in the association-list registry, as `HashMap::get`. -/
def hashLookup : Registry → String → Option Nat
  | [], _ => none
  | (k', v') :: rest, k => if k' = k then some v' else hashLookup rest k

/-- Insertion with `HashMap::insert` semantics: replaces the value bound to an existing key
and returns the previous value, or appends a new binding and returns
`none`. -/
def hashInsert : Registry → String → Nat → Option Nat × Registry
  | [], k, v => (none, [(k, v)])
  | (k', v') :: rest, k, v =>
      if k' = k then (some v', (k, v) :: rest)
      else
        let r := hashInsert rest k v
        (r.1, (k', v') :: r.2)

/-- Removal with `HashMap::remove` semantics (first matching binding; unique under the
key-uniqueness invariant). -/
def hashRemove : Registry → String → Registry
  | [], _ => []
  | (k', v') :: rest, k =>
      if k' = k then rest else (k', v') :: hashRemove rest k

/-- Which mpsc send operation the broker invokes on an egress queue:
`Sender::send(..).await` (`awaited`) or `Sender::try_send` (`tried`).  The
fan-out at src/src/server.rs:85 is `sender.send(..).await`. -/
inductive SendKind where
  | awaited
  | tried
deriving DecidableEq, Repr

/-- The observable actions of one broker loop iteration (src/src/server.rs:
81-130): a send to a registered connection's egress queue, a send to the
broker's own inbound queue `tx`, or the answer on a `Join`'s oneshot
response channel. -/
inductive Effect where
  | egressSend (dest : Nat) (kind : SendKind) (msg : InternalMessage)
  | selfSend (msg : InternalMessage)
  | respond (t : MessageType)
deriving DecidableEq, Repr

/-- One iteration of the broker loop `server_task` (src/src/server.rs:76-134)
on registry `map` and inbound event `msg`: the new registry and the effects
in program order.  `none` models a panic (the `try_clone().unwrap()` of the
fan-out at line 85).  The fan-out loop sends to every registry entry and
discards each send's result (`let _ = ... .await`), so a failed send neither
stops the iteration nor changes the registry.  In the `Join` arm the source
calls `map.insert` first and only then inspects the previous binding, so a
duplicate username still overwrites the stored egress sender. -/
def serverStep (now : String) (map : Registry) (msg : InternalMessage) :
    Option (Registry × List Effect) :=
  match msg with
  | InternalMessage.Message desc header content =>
      match (InternalMessage.Message desc header content).try_clone with
      | some m =>
          some (map,
            map.map (fun e => Effect.egressSend e.2 SendKind.awaited m))
      | none => none
  | InternalMessage.Join username sender =>
      let header := serverHeaderJson now username none
      match hashInsert map username sender with
      | (some _, map2) =>
          some (map2, [Effect.respond MessageType.UsernameExists])
      | (none, map2) =>
          some (map2,
            [Effect.selfSend (InternalMessage.Message
                ((Descriptor.fromType MessageType.Login).with_header_len
                  header.utf8ByteSize)
                header Content.None_),
             Effect.respond MessageType.Login])
  | InternalMessage.Logout username =>
      let map2 := hashRemove map username
      let header := serverHeaderJson now username none
      some (map2,
        [Effect.selfSend (InternalMessage.Message
            ((Descriptor.fromType MessageType.Logout).with_header_len
              header.utf8ByteSize)
            header Content.None_)])

/-- C1 at the failing input: with `alice` registered with egress sender 1, a
`Join` for `alice` with egress sender 2 is answered `UsernameExists`, but the
registry is NOT unchanged: `map.insert` ran before the duplicate check
(src/src/server.rs:98), so `alice` is now bound to sender 2, no longer to the
original sender 1. -/
theorem C1_duplicate_join_replaces_sender :
    serverStep "2025-01-01T00:00:00Z" [("alice", 1)]
        (InternalMessage.Join "alice" 2) =
      some ([("alice", 2)], [Effect.respond MessageType.UsernameExists]) ∧
      hashLookup [("alice", 2)] "alice" ≠ some 1 := by
  exact ⟨rfl, by decide⟩

/-- C5 (amended): the broker's `Message` fan-out performs an *awaiting*
`send` (not `try_send`) of a clone to every registered egress queue, in
registry order; send results are discarded, so no subscriber is removed and
the registry after processing equals the registry before. -/
theorem C5_broadcast_awaited_registry_unchanged (now : String)
    (map : Registry) (d : Descriptor) (h : String) (c : Content)
    (st : Registry) (effs : List Effect)
    (hstep : serverStep now map (InternalMessage.Message d h c) =
      some (st, effs)) :
    st = map ∧
      effs = map.map (fun e => Effect.egressSend e.2 SendKind.awaited
        (InternalMessage.Message d h c)) ∧
      ∀ e ∈ effs, ∃ dest, e = Effect.egressSend dest SendKind.awaited
        (InternalMessage.Message d h c) := by
  have hred : serverStep now map (InternalMessage.Message d h c) =
      some (map, map.map (fun e => Effect.egressSend e.2 SendKind.awaited
        (InternalMessage.Message d h c))) := rfl
  rw [hred] at hstep
  cases hstep
  refine ⟨rfl, rfl, ?_⟩
  intro e he
  rcases List.mem_map.mp he with ⟨x, _, rfl⟩
  exact ⟨x.2, rfl⟩

/-- Witness for `C5_broadcast_awaited_registry_unchanged` on a two-entry
registry. -/
theorem C5_broadcast_witness :
    [("alice", 1), ("bob", 2)] = ([("alice", 1), ("bob", 2)] : Registry) ∧
      (List.map (fun e => Effect.egressSend e.2 SendKind.awaited
          (InternalMessage.Message (Descriptor.fromType MessageType.Utf8)
            "hd" (Content.Vec [104, 105]))) [("alice", 1), ("bob", 2)]) =
        List.map (fun e => Effect.egressSend e.2 SendKind.awaited
          (InternalMessage.Message (Descriptor.fromType MessageType.Utf8)
            "hd" (Content.Vec [104, 105]))) [("alice", 1), ("bob", 2)] ∧
      ∀ e ∈ List.map (fun e => Effect.egressSend e.2 SendKind.awaited
          (InternalMessage.Message (Descriptor.fromType MessageType.Utf8)
            "hd" (Content.Vec [104, 105]))) [("alice", 1), ("bob", 2)],
        ∃ dest, e = Effect.egressSend dest SendKind.awaited
          (InternalMessage.Message (Descriptor.fromType MessageType.Utf8)
            "hd" (Content.Vec [104, 105])) :=
  C5_broadcast_awaited_registry_unchanged "2025-01-01T00:00:00Z"
    [("alice", 1), ("bob", 2)] (Descriptor.fromType MessageType.Utf8) "hd"
    (Content.Vec [104, 105]) [("alice", 1), ("bob", 2)] _ rfl

/-- Counterexample to C5 as stated: at a concrete registry and message the
fan-out effect is an `awaited` send (`sender.send(..).await`,
src/src/server.rs:85), and `awaited` is not the `try_send` operation the
claim names. -/
theorem C5_counterexample :
    serverStep "2025-01-01T00:00:00Z" [("alice", 1)]
        (InternalMessage.Message (Descriptor.fromType MessageType.Utf8) "hd"
          (Content.Vec [104, 105])) =
      some ([("alice", 1)],
        [Effect.egressSend 1 SendKind.awaited
          (InternalMessage.Message (Descriptor.fromType MessageType.Utf8)
            "hd" (Content.Vec [104, 105]))]) ∧
      SendKind.awaited ≠ SendKind.tried := by
  exact ⟨rfl, by decide⟩

/-- C10: the broker never panics on an event (in particular the
`try_clone().unwrap()` in the fan-out always succeeds), and every event it
places on a per-connection egress queue is a `Message` variant — the events
sent during registry iteration are clones of a `Message`, so the egress
task's non-`Message` branch (src/src/server.rs:163 `unreachable!()`) is never
taken for broker-delivered events. -/
theorem C10_egress_events_are_messages :
    (∀ (now : String) (map : Registry) (msg : InternalMessage),
        (serverStep now map msg).isSome = true) ∧
      (∀ (now : String) (map : Registry) (msg : InternalMessage)
          (res : Registry × List Effect),
        serverStep now map msg = some res →
          ∀ (dest : Nat) (k : SendKind) (m : InternalMessage),
            Effect.egressSend dest k m ∈ res.2 →
              (∃ d h c, m = InternalMessage.Message d h c) ∧
                m.try_clone.isSome = true) := by
  constructor
  · intro now map msg
    cases msg with
    | Message d h c => rfl
    | Join u s =>
        simp only [serverStep]
        rcases hins : hashInsert map u s with ⟨o, m2⟩
        cases o <;> simp
    | Logout u => rfl
  · intro now map msg res hstep dest k m hmem
    cases msg with
    | Message d h c =>
        have hred : serverStep now map (InternalMessage.Message d h c) =
            some (map, map.map (fun e => Effect.egressSend e.2
              SendKind.awaited (InternalMessage.Message d h c))) := rfl
        rw [hred] at hstep
        cases hstep
        rcases List.mem_map.mp hmem with ⟨x, _, hx⟩
        cases hx
        exact ⟨⟨d, h, c, rfl⟩, rfl⟩
    | Join u s =>
        simp only [serverStep] at hstep
        rcases hins : hashInsert map u s with ⟨o, m2⟩
        rw [hins] at hstep
        cases o <;> cases hstep <;> simp at hmem
    | Logout u =>
        simp only [serverStep] at hstep
        cases hstep
        simp at hmem

/-- Witness for `C10_egress_events_are_messages`: a concrete broadcast step
with one subscriber, whose single egress effect carries a `Message`. -/
theorem C10_egress_witness :
    (serverStep "2025-01-01T00:00:00Z" [("alice", 1)]
        (InternalMessage.Message (Descriptor.fromType MessageType.Utf8) "hd"
          Content.None_)).isSome = true ∧
      ((∃ d h c, InternalMessage.Message (Descriptor.fromType
          MessageType.Utf8) "hd" Content.None_ =
            InternalMessage.Message d h c) ∧
        (InternalMessage.Message (Descriptor.fromType MessageType.Utf8) "hd"
          Content.None_).try_clone.isSome = true) :=
  ⟨C10_egress_events_are_messages.1 "2025-01-01T00:00:00Z" [("alice", 1)]
      (InternalMessage.Message (Descriptor.fromType MessageType.Utf8) "hd"
        Content.None_),
    C10_egress_events_are_messages.2 "2025-01-01T00:00:00Z" [("alice", 1)]
      (InternalMessage.Message (Descriptor.fromType MessageType.Utf8) "hd"
        Content.None_)
      ([("alice", 1)],
        [Effect.egressSend 1 SendKind.awaited
          (InternalMessage.Message (Descriptor.fromType MessageType.Utf8)
            "hd" Content.None_)])
      rfl 1 SendKind.awaited
      (InternalMessage.Message (Descriptor.fromType MessageType.Utf8) "hd"
        Content.None_) (by simp)⟩

theorem hashInsert_fst (m : Registry) (k : String) (v : Nat) :
    (hashInsert m k v).1 = hashLookup m k := by
  induction m with
  | nil => rfl
  | cons e rest ih =>
      obtain ⟨k', v'⟩ := e
      by_cases hk : k' = k <;> simp [hashInsert, hashLookup, hk, ih]

theorem hashInsert_length_some (m : Registry) (k : String) (v : Nat)
    (h : (hashLookup m k).isSome = true) :
    (hashInsert m k v).2.length = m.length := by
  induction m with
  | nil => simp [hashLookup] at h
  | cons e rest ih =>
      obtain ⟨k', v'⟩ := e
      by_cases hk : k' = k
      · simp [hashInsert, hk]
      · simp [hashLookup, hk] at h
        simp [hashInsert, hk, ih h]

theorem hashInsert_length_none (m : Registry) (k : String) (v : Nat)
    (h : hashLookup m k = none) :
    (hashInsert m k v).2.length = m.length + 1 := by
  induction m with
  | nil => rfl
  | cons e rest ih =>
      obtain ⟨k', v'⟩ := e
      by_cases hk : k' = k
      · simp [hashLookup, hk] at h
      · simp [hashLookup, hk] at h
        simp [hashInsert, hk, ih h]

theorem hashRemove_length (m : Registry) (k : String)
    (h : (hashLookup m k).isSome = true) :
    m.length = (hashRemove m k).length + 1 := by
  induction m with
  | nil => simp [hashLookup] at h
  | cons e rest ih =>
      obtain ⟨k', v'⟩ := e
      by_cases hk : k' = k
      · simp [hashRemove, hk]
      · simp [hashLookup, hk] at h
        simp [hashRemove, hk, ih h]

/-- The usernames bound in the registry, in order. -/
def keys : Registry → List String
  | [] => []
  | (k, _) :: rest => k :: keys rest

/-- Key uniqueness of the modelled `HashMap`: at most one binding per
username. -/
def keysNodup (m : Registry) : Prop := (keys m).Nodup

theorem mem_keys_hashInsert (m : Registry) (k x : String) (v : Nat)
    (h : x ∈ keys (hashInsert m k v).2) : x = k ∨ x ∈ keys m := by
  induction m with
  | nil => simpa [hashInsert, keys] using h
  | cons e rest ih =>
      obtain ⟨k', v'⟩ := e
      by_cases hk : k' = k
      · simp [hashInsert, hk, keys] at h
        simp [keys, hk]
        tauto
      · simp [hashInsert, hk, keys] at h
        rcases h with h | h
        · simp [keys, h]
        · rcases ih h with h' | h' <;> simp [keys, h']

theorem keysNodup_hashInsert (m : Registry) (k : String) (v : Nat)
    (h : keysNodup m) : keysNodup (hashInsert m k v).2 := by
  induction m with
  | nil => simp [hashInsert, keysNodup, keys]
  | cons e rest ih =>
      obtain ⟨k', v'⟩ := e
      simp only [keysNodup, keys, List.nodup_cons] at h
      by_cases hk : k' = k
      · subst hk
        simpa [hashInsert, keysNodup, keys, List.nodup_cons] using h
      · simp only [hashInsert, hk, if_false, keysNodup, keys,
          List.nodup_cons]
        refine ⟨fun hmem => ?_, ih h.2⟩
        rcases mem_keys_hashInsert rest k k' v hmem with h' | h'
        · exact hk h'
        · exact h.1 h'

theorem mem_keys_hashRemove (m : Registry) (k x : String)
    (h : x ∈ keys (hashRemove m k)) : x ∈ keys m := by
  induction m with
  | nil => simpa [hashRemove] using h
  | cons e rest ih =>
      obtain ⟨k', v'⟩ := e
      by_cases hk : k' = k
      · simp [hashRemove, hk, keys] at h
        simp [keys, h]
      · simp [hashRemove, hk, keys] at h
        rcases h with h | h
        · simp [keys, h]
        · simp [keys, ih h]

theorem keysNodup_hashRemove (m : Registry) (k : String)
    (h : keysNodup m) : keysNodup (hashRemove m k) := by
  induction m with
  | nil => simpa [hashRemove] using h
  | cons e rest ih =>
      obtain ⟨k', v'⟩ := e
      simp only [keysNodup, keys, List.nodup_cons] at h
      by_cases hk : k' = k
      · simpa [hashRemove, hk, keysNodup] using h.2
      · simp only [hashRemove, hk, if_false, keysNodup, keys,
          List.nodup_cons]
        exact ⟨fun hmem => h.1 (mem_keys_hashRemove rest k k' hmem),
          ih h.2⟩

/-- The Join/Logout event alphabet of claim C6; `join` carries the
connection's egress-queue id as `serverStep` expects. -/
inductive RegEvent where
  | join (username : String) (sender : Nat)
  | logout (username : String)
deriving DecidableEq, Repr

def RegEvent.toInternal : RegEvent → InternalMessage
  | .join u s => .Join u s
  | .logout u => .Logout u

/-- Replay a sequence of Join/Logout events through `serverStep` from
registry `st`.  Returns the final registry, the number of accepted Joins
(those the broker answered with `Login`) and the number of processed
Logouts.  The `none` branch of `serverStep` is unreachable for Join/Logout
events. -/
def replay (now : String) (st : Registry) :
    List RegEvent → Registry × Nat × Nat
  | [] => (st, 0, 0)
  | e :: es =>
      match serverStep now st e.toInternal with
      | some (st1, effs) =>
          let r := replay now st1 es
          match e with
          | .join _ _ =>
              (r.1,
                (if Effect.respond MessageType.Login ∈ effs then 1 else 0) +
                  r.2.1,
                r.2.2)
          | .logout _ => (r.1, r.2.1, r.2.2 + 1)
      | none => (st, 0, 0)

/-- The registry component of one Join/Logout `serverStep`. -/
def stepReg (st : Registry) : RegEvent → Registry
  | .join u s => (hashInsert st u s).2
  | .logout u => hashRemove st u

/-- Every `Logout` in the sequence names a username registered at its point
— the shape of every event sequence the broker can actually receive, since a
connection emits `Logout` only after its `Join` was accepted. -/
def logoutsCovered (st : Registry) : List RegEvent → Bool
  | [] => true
  | e :: es =>
      (match e with
       | .logout u => (hashLookup st u).isSome
       | .join _ _ => true) && logoutsCovered (stepReg st e) es

theorem replay_join (now : String) (st : Registry) (u : String) (s : Nat)
    (es : List RegEvent) :
    replay now st (RegEvent.join u s :: es) =
      ((replay now (hashInsert st u s).2 es).1,
        (if (hashLookup st u).isSome then 0 else 1) +
          (replay now (hashInsert st u s).2 es).2.1,
        (replay now (hashInsert st u s).2 es).2.2) := by
  have hlk : hashLookup st u = (hashInsert st u s).1 :=
    (hashInsert_fst st u s).symm
  rcases hins : hashInsert st u s with ⟨o, st1⟩
  rw [hins] at hlk
  simp only at hlk
  simp only [replay, RegEvent.toInternal, serverStep, hins]
  cases o <;> simp [hlk]

theorem replay_logout (now : String) (st : Registry) (u : String)
    (es : List RegEvent) :
    replay now st (RegEvent.logout u :: es) =
      ((replay now (hashRemove st u) es).1,
        (replay now (hashRemove st u) es).2.1,
        (replay now (hashRemove st u) es).2.2 + 1) := by
  simp only [replay, RegEvent.toInternal, serverStep]

theorem replay_size (now : String) (evs : List RegEvent) :
    ∀ st : Registry, logoutsCovered st evs = true →
      (replay now st evs).1.length + (replay now st evs).2.2 =
        st.length + (replay now st evs).2.1 := by
  induction evs with
  | nil => intro st _; simp [replay]
  | cons e es ih =>
      intro st hwf
      cases e with
      | join u s =>
          rw [replay_join]
          have hwf' : logoutsCovered (hashInsert st u s).2 es = true := by
            simpa [logoutsCovered, stepReg] using hwf
          have hr := ih _ hwf'
          by_cases hl : (hashLookup st u).isSome
          · have hlen := hashInsert_length_some st u s hl
            simp [hl]
            omega
          · have hnone : hashLookup st u = none :=
              Option.not_isSome_iff_eq_none.mp hl
            have hlen := hashInsert_length_none st u s hnone
            simp [hl]
            omega
      | logout u =>
          rw [replay_logout]
          simp only [logoutsCovered, Bool.and_eq_true] at hwf
          obtain ⟨hcov, hwf'⟩ := hwf
          have hr := ih _ (by simpa [stepReg] using hwf')
          have hlen := hashRemove_length st u hcov
          simp
          omega

theorem replay_keysNodup (now : String) (evs : List RegEvent) :
    ∀ st : Registry, keysNodup st → keysNodup (replay now st evs).1 := by
  induction evs with
  | nil => intro st h; simpa [replay] using h
  | cons e es ih =>
      intro st h
      cases e with
      | join u s =>
          rw [replay_join]
          exact ih _ (keysNodup_hashInsert st u s h)
      | logout u =>
          rw [replay_logout]
          exact ih _ (keysNodup_hashRemove st u h)

/-- C6 (amended): for every sequence of Join/Logout events in which each
Logout names a currently registered username — the shape of every sequence
the broker can actually receive, since a connection emits `Logout` only after
its Join was accepted — the registry size after replay equals accepted Joins
minus processed Logouts; and for every event sequence whatsoever, every
reachable registry state has at most one entry per username. -/
theorem C6_registry_size_invariant :
    (∀ (now : String) (evs : List RegEvent),
        logoutsCovered [] evs = true →
          ((replay now [] evs).1.length : Int) =
            ((replay now [] evs).2.1 : Int) -
              ((replay now [] evs).2.2 : Int)) ∧
      ∀ (now : String) (evs : List RegEvent),
        keysNodup (replay now [] evs).1 := by
  constructor
  · intro now evs h
    have hr := replay_size now evs [] h
    simp only [List.length_nil, Nat.zero_add] at hr
    omega
  · intro now evs
    exact replay_keysNodup now evs [] (by simp [keysNodup, keys])

/-- Witness for `C6_registry_size_invariant` on a concrete event sequence
with an accepted join, a rejected duplicate join and two covered logouts. -/
theorem C6_registry_size_witness :
    logoutsCovered []
        [RegEvent.join "alice" 1, RegEvent.join "bob" 2,
          RegEvent.join "alice" 3, RegEvent.logout "alice",
          RegEvent.logout "bob"] = true ∧
      ((replay "2025-01-01T00:00:00Z" []
            [RegEvent.join "alice" 1, RegEvent.join "bob" 2,
              RegEvent.join "alice" 3, RegEvent.logout "alice",
              RegEvent.logout "bob"]).1.length : Int) =
        ((replay "2025-01-01T00:00:00Z" []
            [RegEvent.join "alice" 1, RegEvent.join "bob" 2,
              RegEvent.join "alice" 3, RegEvent.logout "alice",
              RegEvent.logout "bob"]).2.1 : Int) -
          ((replay "2025-01-01T00:00:00Z" []
            [RegEvent.join "alice" 1, RegEvent.join "bob" 2,
              RegEvent.join "alice" 3, RegEvent.logout "alice",
              RegEvent.logout "bob"]).2.2 : Int) :=
  ⟨by decide,
    C6_registry_size_invariant.1 "2025-01-01T00:00:00Z"
      [RegEvent.join "alice" 1, RegEvent.join "bob" 2,
        RegEvent.join "alice" 3, RegEvent.logout "alice",
        RegEvent.logout "bob"] (by decide)⟩

/-- Counterexample to C6 as stated (quantifying over *every* sequence of
Join/Logout events): for the sequence holding a single `Logout` for an
unregistered username, the registry size (0) differs from accepted Joins
minus processed Logouts (0 − 1). -/
theorem C6_counterexample :
    ((replay "2025-01-01T00:00:00Z" []
          [RegEvent.logout "alice"]).1.length : Int) ≠
      ((replay "2025-01-01T00:00:00Z" []
          [RegEvent.logout "alice"]).2.1 : Int) -
        ((replay "2025-01-01T00:00:00Z" []
          [RegEvent.logout "alice"]).2.2 : Int) := by
  decide

/-- The constant `BUF_SIZE` (src/src/server.rs:17): 16 KiB. -/
def BUF_SIZE : Nat := 16 * 1024

/-- Model of the `std`/`tokio` `OpenOptions` flag set (all flags default to
false in `OpenOptions::new()`). -/
structure OpenOptions where
  read : Bool
  write : Bool
  append : Bool
  truncate : Bool
  create : Bool
  createNew : Bool
deriving DecidableEq, Repr

/-- Whether `OpenOptions::open` can succeed with these flags, per the
documented `std::fs::OpenOptions` rules (which `tokio::fs::OpenOptions`
wraps): an access mode (read, write or append) is required; the creation
flags `create`, `create_new` and `truncate` require write or append access;
`truncate` conflicts with `append`.  A violating combination makes `open`
fail with `EINVAL` regardless of the path. -/
def OpenOptions.openSucceeds (o : OpenOptions) : Bool :=
  (o.read || o.write || o.append) &&
    (o.write || o.append || !(o.truncate || o.create || o.createNew)) &&
    !(o.append && o.truncate)

/-- The flags used for the spill file at src/src/server.rs:252:
`OpenOptions::new().create(true)` — create set, but no read, write or append
access requested. -/
def spillOpenOptions : OpenOptions :=
  { read := false, write := false, append := false, truncate := false,
    create := true, createNew := false }

/-- Is `b` a UTF-8 continuation byte (`0x80..=0xBF`)? -/
def isCont (b : Nat) : Bool := 128 ≤ b && b ≤ 191

/-- Model of `String::from_utf8`: decode a byte list as UTF-8 with exactly
the acceptance ranges of Rust std's validation (overlong encodings,
surrogates and values above U+10FFFF rejected); `none` on invalid input. -/
def utf8Decode : List Nat → Option String
  | [] => some ""
  | b :: r =>
      if b ≤ 127 then
        (utf8Decode r).map fun s => String.mk (Char.ofNat b :: s.data)
      else if b ≤ 193 then none
      else if b ≤ 223 then
        match r with
        | c1 :: r1 =>
            if isCont c1 then
              (utf8Decode r1).map fun s =>
                String.mk (Char.ofNat ((b - 192) * 64 + (c1 - 128)) :: s.data)
            else none
        | [] => none
      else if b ≤ 239 then
        match r with
        | c1 :: c2 :: r2 =>
            if (if b = 224 then 160 ≤ c1 && c1 ≤ 191
                else if b = 237 then 128 ≤ c1 && c1 ≤ 159
                else isCont c1) && isCont c2 then
              (utf8Decode r2).map fun s =>
                String.mk (Char.ofNat ((b - 224) * 4096 + (c1 - 128) * 64 +
                  (c2 - 128)) :: s.data)
            else none
        | _ => none
      else if b ≤ 244 then
        match r with
        | c1 :: c2 :: c3 :: r3 =>
            if (if b = 240 then 144 ≤ c1 && c1 ≤ 191
                else if b = 244 then 128 ≤ c1 && c1 ≤ 143
                else isCont c1) && isCont c2 && isCont c3 then
              (utf8Decode r3).map fun s =>
                String.mk (Char.ofNat ((b - 240) * 262144 +
                  (c1 - 128) * 4096 + (c2 - 128) * 64 + (c3 - 128)) :: s.data)
            else none
        | _ => none
      else none

/-- The outcome of one `process_msg` iteration: a panic (`todo!()`), an
`Err(..)` return (which ends the ingress loop gracefully), or success with
the event sent to the broker, the spill file written (path and bytes), and
the unconsumed remainder of the stream. -/
inductive IngressResult where
  | panicked
  | ioErr
  | ok (sent : InternalMessage) (spilled : Option (String × List Nat))
      (rest : List Nat)
deriving DecidableEq, Repr

/-- The content-materialization, header-build and send steps of
`process_msg` (src/src/server.rs:244-277).  If `content_len ≤ BUF_SIZE` the
content is read exactly (`read_exact`) into memory.  Otherwise the source
opens a spill file with `spillOpenOptions`; those flags request no write or
append access, so the open fails with `EINVAL` and the `?` operator returns
the error (`.ioErr`).  The remaining branch — unreachable in the source — is
kept faithful to the loop `while reader.read_buf(&mut buf).await? != 0`,
which copies the stream until end-of-stream, not until `content_len` bytes:
it would consume the whole remaining stream into the spill file. -/
def finishMsg (uname now spillPath : String) (desc : Descriptor)
    (filename : Option String) (rest : List Nat) : IngressResult :=
  if desc.content_len ≤ BUF_SIZE then
    if rest.length < desc.content_len then .ioErr
    else
      let header := serverHeaderJson now uname filename
      .ok (InternalMessage.Message (desc.with_header_len header.utf8ByteSize)
          header (Content.Vec (rest.take desc.content_len)))
        none (rest.drop desc.content_len)
  else
    if spillOpenOptions.openSucceeds then
      let header := serverHeaderJson now uname filename
      .ok (InternalMessage.Message (desc.with_header_len header.utf8ByteSize)
          header (Content.File spillPath))
        (some (spillPath, rest)) []
    else .ioErr

/-- One iteration of the ingress loop, `process_msg`
(src/src/server.rs:224-278), on the connection's remaining input stream.
Reads a 16-byte descriptor; any kind outside {Utf8, File, Voice, Image}
reaches the `todo!()` at line 232, i.e. panics (`.panicked`).  For `File`,
reads `header_len` bytes as the filename, decoded best-effort
(`String::from_utf8(..).unwrap_or_default()`: malformed text becomes the
empty string).  `spillPath` stands for the random unique id path
`temp_dir().join(Uuid::new_v4())`. -/
def process_msg (uname now spillPath : String) (stream : List Nat) :
    IngressResult :=
  if stream.length < 16 then .ioErr
  else
    match Descriptor.from_bytes (stream.take 16) with
    | none => .ioErr
    | some desc =>
        match desc.type with
        | .Utf8 | .File | .Voice | .Image =>
            let rest := stream.drop 16
            if desc.type = MessageType.File then
              if rest.length < desc.header_len then .ioErr
              else
                finishMsg uname now spillPath desc
                  (some (match utf8Decode (rest.take desc.header_len) with
                         | some s => s
                         | none => ""))
                  (rest.drop desc.header_len)
            else finishMsg uname now spillPath desc none rest
        | _ => .panicked

/-- C3 at the failing input: a mid-session frame whose descriptor kind is
`Logout` (2), and one whose kind is unknown (65535 → `Unknwown`), both make
`process_msg` hit the `todo!()` and panic; the ingress loop does not end
with an `Err` and `handle_connection` never reaches the `Logout` send at
src/src/server.rs:171-174 (the task unwinds instead). -/
theorem C3_unexpected_kind_panics :
    process_msg "alice" "2025-01-01T00:00:00Z" "/tmp/08761b5e"
        ([2, 0] ++ List.replicate 14 0) = IngressResult.panicked ∧
      process_msg "alice" "2025-01-01T00:00:00Z" "/tmp/08761b5e"
        ([255, 255] ++ List.replicate 14 0) = IngressResult.panicked ∧
      IngressResult.panicked ≠ IngressResult.ioErr := by
  exact ⟨rfl, rfl, by decide⟩

/-- C2 at the failing input: a mid-session `Utf8` frame with
`content_len = 102400 > BUF_SIZE`.  The spill branch opens the file with
`OpenOptions::new().create(true)` and no write/append access, which cannot
succeed, so `process_msg` returns an error: no spill file is created, no
bytes are written, nothing is broadcast, and the connection's ingress loop
ends. -/
theorem C2_large_content_spill_fails :
    spillOpenOptions.openSucceeds = false ∧
      BUF_SIZE < 102400 ∧
      process_msg "alice" "2025-01-01T00:00:00Z" "/tmp/08761b5e"
          ([7, 0, 0, 0, 0, 0, 0, 0, 0, 144, 1, 0, 0, 0, 0, 0] ++
            List.replicate 32 5) = IngressResult.ioErr := by
  exact ⟨by decide, by decide, rfl⟩

/-- The outcome of the login handshake `process_login`: the accepted
username (a Rust `String` is its UTF-8 bytes), the descriptor-only reply
frames written to the client in order, and the unconsumed stream; or an
`Err(..)` return with the frames written before it. -/
inductive LoginResult where
  | ok (username : List Nat) (writes : List Descriptor) (rest : List Nat)
  | ioErr (writes : List Descriptor)
deriving DecidableEq, Repr

/-- Record one more descriptor-only frame written before the rest of the
handshake ran. -/
def LoginResult.prepend (d : Descriptor) : LoginResult → LoginResult
  | .ok u w r => .ok u (d :: w) r
  | .ioErr w => .ioErr (d :: w)

/-- The login handshake `process_login` (src/src/server.rs:179-222) over the
connection's input stream.  `oracle` models the broker's reply on the Join
oneshot channel for a given username.  Each iteration reads a 16-byte
descriptor; a non-`Login` kind is answered with a descriptor-only `BadLogin`
frame and the loop restarts at the current stream position; a `Login` frame
has its `header_len` bytes read and UTF-8-decoded, invalid bytes being
answered with `BadUsername`; otherwise the broker's reply kind is written
back as a descriptor-only frame and only a `Login` reply exits with the
username. -/
def process_login (oracle : List Nat → MessageType) (stream : List Nat) :
    LoginResult :=
  if h16 : stream.length < 16 then .ioErr []
  else
    match Descriptor.from_bytes (stream.take 16) with
    | none => .ioErr []
    | some desc =>
        if desc.type ≠ MessageType.Login then
          (process_login oracle (stream.drop 16)).prepend
            (Descriptor.fromType MessageType.BadLogin)
        else if (stream.drop 16).length < desc.header_len then .ioErr []
        else
          match utf8Decode ((stream.drop 16).take desc.header_len) with
          | none =>
              (process_login oracle
                  ((stream.drop 16).drop desc.header_len)).prepend
                (Descriptor.fromType MessageType.BadUsername)
          | some _ =>
              if oracle ((stream.drop 16).take desc.header_len) =
                  MessageType.Login then
                .ok ((stream.drop 16).take desc.header_len)
                  [Descriptor.fromType
                    (oracle ((stream.drop 16).take desc.header_len))]
                  ((stream.drop 16).drop desc.header_len)
              else
                (process_login oracle
                    ((stream.drop 16).drop desc.header_len)).prepend
                  (Descriptor.fromType
                    (oracle ((stream.drop 16).take desc.header_len)))
termination_by stream.length
decreasing_by
  all_goals simp [List.length_drop]
  all_goals omega

/-- If prepending a written frame to a handshake outcome yields success,
the underlying outcome was the same success with one frame fewer. -/
theorem prepend_ok (d : Descriptor) (res : LoginResult) (u : List Nat)
    (w : List Descriptor) (r : List Nat)
    (h : res.prepend d = LoginResult.ok u w r) :
    ∃ w', res = LoginResult.ok u w' r := by
  cases res with
  | ok u0 w0 r0 =>
      simp only [LoginResult.prepend, LoginResult.ok.injEq] at h
      obtain ⟨h1, -, h3⟩ := h
      exact ⟨w0, by rw [h1, h3]⟩
  | ioErr w0 => simp [LoginResult.prepend] at h

/-- Helper for C8: whenever `process_login` exits successfully, the broker's
reply for the returned username was `Login`. -/
theorem process_login_ok_reply (oracle : List Nat → MessageType)
    (stream : List Nat) :
    ∀ u w r, process_login oracle stream = LoginResult.ok u w r →
      oracle u = MessageType.Login := by
  refine process_login.induct oracle
    (fun s => ∀ u w r, process_login oracle s = LoginResult.ok u w r →
      oracle u = MessageType.Login) ?_ ?_ ?_ ?_ ?_ ?_ ?_ stream
  · intro x h16 u w r hok
    rw [process_login] at hok
    simp [h16] at hok
  · intro x h16 hfb u w r hok
    rw [process_login] at hok
    simp [h16, hfb] at hok
  · intro x h16 desc hfb hty ih u w r hok
    rw [process_login] at hok
    simp only [h16, dite_false, hfb, hty, ne_eq, not_false_eq_true,
      if_true, ite_true] at hok
    obtain ⟨w', hw⟩ := prepend_ok _ _ _ _ _ hok
    exact ih u w' r hw
  · intro x h16 desc hfb hnty hsh u w r hok
    rw [process_login] at hok
    simp only [h16, dite_false, hfb, hnty, hsh, ne_eq, if_false, ite_false,
      not_false_eq_true, if_true, ite_true, not_true_eq_false] at hok
    simp at hok
  · intro x h16 desc hfb hnty hsh hdec ih u w r hok
    rw [process_login] at hok
    simp only [h16, dite_false, hfb, hnty, hsh, hdec, ne_eq, if_false,
      ite_false, not_false_eq_true, if_true, ite_true,
      not_true_eq_false] at hok
    obtain ⟨w', hw⟩ := prepend_ok _ _ _ _ _ hok
    exact ih u w' r hw
  · intro x h16 desc hfb hnty hsh f hdec hresp u w r hok
    rw [process_login] at hok
    simp only [h16, dite_false, hfb, hnty, hsh, hdec, hresp, ne_eq,
      if_false, ite_false, not_false_eq_true, if_true, ite_true,
      not_true_eq_false, LoginResult.ok.injEq] at hok
    obtain ⟨h1, -, -⟩ := hok
    rw [← h1]
    exact hresp
  · intro x h16 desc hfb hnty hsh f hdec hresp ih u w r hok
    rw [process_login] at hok
    simp only [h16, dite_false, hfb, hnty, hsh, hdec, hresp, ne_eq,
      if_false, ite_false, not_false_eq_true, if_true, ite_true,
      not_true_eq_false] at hok
    obtain ⟨w', hw⟩ := prepend_ok _ _ _ _ _ hok
    exact ih u w' r hw

/-- C8: the login handshake, in three parts.  (1) A first descriptor of
non-`Login` kind is answered with a descriptor-only `BadLogin` frame (empty
header and content) and the handshake loops on the rest of the stream.
(2) A `Login` descriptor whose `header_len` username bytes are not valid
UTF-8 is answered with a descriptor-only `BadUsername` frame and the
handshake loops.  (3) The handshake exits into the ingress loop only when
the broker's reply for the username is `Login`. -/
theorem C8_login_handshake :
    (∀ (oracle : List Nat → MessageType) (stream : List Nat)
        (d : Descriptor),
      ¬ stream.length < 16 →
      Descriptor.from_bytes (stream.take 16) = some d →
      d.type ≠ MessageType.Login →
      process_login oracle stream =
        (process_login oracle (stream.drop 16)).prepend
          (Descriptor.fromType MessageType.BadLogin)) ∧
    (∀ (oracle : List Nat → MessageType) (stream : List Nat)
        (d : Descriptor),
      ¬ stream.length < 16 →
      Descriptor.from_bytes (stream.take 16) = some d →
      d.type = MessageType.Login →
      ¬ (stream.drop 16).length < d.header_len →
      utf8Decode ((stream.drop 16).take d.header_len) = none →
      process_login oracle stream =
        (process_login oracle
            ((stream.drop 16).drop d.header_len)).prepend
          (Descriptor.fromType MessageType.BadUsername)) ∧
    (∀ (oracle : List Nat → MessageType) (stream : List Nat)
        (u : List Nat) (w : List Descriptor) (r : List Nat),
      process_login oracle stream = LoginResult.ok u w r →
      oracle u = MessageType.Login) := by
  refine ⟨?_, ?_, ?_⟩
  · intro oracle stream d h16 hfb hty
    rw [process_login]
    simp [h16, hfb, hty]
  · intro oracle stream d h16 hfb hty hsh hdec
    rw [process_login]
    have hnty : ¬ d.type ≠ MessageType.Login := by simp [hty]
    simp only [h16, dite_false, hfb, hnty, hsh, hdec, ne_eq, if_false,
      ite_false, not_false_eq_true, if_true, ite_true, not_true_eq_false]
  · intro oracle stream u w r hok
    exact process_login_ok_reply oracle stream u w r hok

/-- Witness for `C8_login_handshake`: part 1 at a `Utf8`-kind first frame,
part 2 at a `Login` frame carrying the invalid byte 255, part 3 at an
accepting broker and username `a`. -/
theorem C8_login_handshake_witness :
    ((¬ ([7, 0] ++ List.replicate 14 0 : List Nat).length < 16) ∧
      Descriptor.from_bytes (([7, 0] ++ List.replicate 14 0).take 16) =
        some (Descriptor.fromType MessageType.Utf8) ∧
      process_login (fun _ => MessageType.Login)
          ([7, 0] ++ List.replicate 14 0) =
        (process_login (fun _ => MessageType.Login)
            (([7, 0] ++ List.replicate 14 0).drop 16)).prepend
          (Descriptor.fromType MessageType.BadLogin)) ∧
    (utf8Decode [255] = none ∧
      process_login (fun _ => MessageType.Login)
          ([1, 0, 1, 0] ++ List.replicate 12 0 ++ [255]) =
        (process_login (fun _ => MessageType.Login)
            ((([1, 0, 1, 0] ++ List.replicate 12 0 ++ [255]).drop 16).drop
              1)).prepend
          (Descriptor.fromType MessageType.BadUsername)) ∧
    (process_login (fun _ => MessageType.Login)
          ([1, 0, 1, 0] ++ List.replicate 12 0 ++ [97]) =
        LoginResult.ok [97] [Descriptor.fromType MessageType.Login] [] ∧
      (fun _ : List Nat => MessageType.Login) [97] = MessageType.Login) :=
  ⟨⟨by decide, by decide,
      C8_login_handshake.1 (fun _ => MessageType.Login)
        ([7, 0] ++ List.replicate 14 0)
        (Descriptor.fromType MessageType.Utf8) (by decide) (by decide)
        (by decide)⟩,
    ⟨by decide,
      C8_login_handshake.2.1 (fun _ => MessageType.Login)
        ([1, 0, 1, 0] ++ List.replicate 12 0 ++ [255])
        ((Descriptor.fromType MessageType.Login).with_header_len 1)
        (by decide) (by decide) (by decide) (by decide) (by decide)⟩,
    ⟨by rw [process_login]; decide,
      C8_login_handshake.2.2 (fun _ => MessageType.Login)
        ([1, 0, 1, 0] ++ List.replicate 12 0 ++ [97]) [97]
        [Descriptor.fromType MessageType.Login] []
        (by rw [process_login]; decide)⟩⟩

/-- C9 at the failing input: `Descriptor::as_bytes` exposes the struct's raw
memory, so the four bytes at offsets 4-7 of the serialization are the
struct's padding bytes, which the program never writes (Rust leaves them
uninitialized).  When the padding memory holds `171`, the emitted pad byte
at offset 4 is `171`, not the zero the claim requires. -/
theorem C9_pad_not_zeroed :
    (Descriptor.as_bytes (Descriptor.fromType MessageType.Utf8)
        [171, 0, 0, 0])[4]! = 171 ∧ (171 : Nat) ≠ 0 := by
  decide

end TcpChat
